import Mathlib

/-!
# Health-check configuration collector (Go package `config_collector`)

A shallow embedding of `config_collector.go` and `config_yaml.go`, followed by
theorems about the collector, the formatter and the probe strategies.

Conventions of the embedding

* A Go `string` is a Lean `String`.  The only byte-level operations the package
  uses are concatenation, `len(s) == 0`, and suffix/prefix tests against ASCII
  patterns; on well-formed UTF-8 these agree with the character-level
  operations used here.
* A Go pointer is an `Option`; dereferencing `nil` is the runtime panic
  `Outcome.panic`, which unwinds every caller (nothing in the package recovers).
* A Go map is the list of its entries in the order `range` yields them.
* Everything outside the process (file system, YAML decoder, network, child
  processes) and the standard-library URL routines are fields of `World`.
* Probe strategies return their result together with the list of external
  calls they made, in order.
-/

set_option maxRecDepth 100000

namespace ConfigCollector

/-! ## Go runtime -/

/-- Result of running a Go function: a normal return or a runtime panic. -/
inductive Outcome (α : Type) where
  | ret (a : α) : Outcome α
  | panic : Outcome α
  deriving DecidableEq, Repr

/-- Go `error`; `none` is `nil`. -/
abbrev GoError := Option String

/-- Go `len(s)`: the number of bytes of the string. -/
def len (s : String) : Nat := s.utf8ByteSize

/-- Go `strings.HasSuffix`: `len(s) >= len(suffix) && s[len(s)-len(suffix):] == suffix`. -/
def HasSuffix (s suffix : String) : Bool :=
  decide (suffix.length ≤ s.length) && (s.data.drop (s.length - suffix.length) == suffix.data)

/-- Go `strings.HasPrefix`: `len(s) >= len(p) && s[:len(p)] == p`. -/
def HasPrefix (s p : String) : Bool :=
  decide (p.length ≤ s.length) && (s.data.take p.length == p.data)

/-- Go `strings.TrimSuffix`: drops one trailing copy of `suffix` when there is one. -/
def TrimSuffix (s suffix : String) : String :=
  if HasSuffix s suffix then ⟨s.data.take (s.length - suffix.length)⟩ else s

/-- Go `strings.ToUpper`, on the ASCII letters. -/
def ToUpper (s : String) : String := ⟨s.data.map Char.toUpper⟩

/-- Go `strings.ToLower`, on the ASCII letters. -/
def ToLower (s : String) : String := ⟨s.data.map Char.toLower⟩

/-- Decimal rendering of an `int` (`%d`, `strconv.Itoa`). -/
def Itoa (v : Int) : String := toString v

/-! ## Constants and data model (`config_yaml.go`) -/

def ConfigPath : String := "/etc/node_exporter/yml"
def network : String := "tcp"
def network4 : String := "tcp4"
def minPort : Int := 0
def MaxPort : Int := 65535

/-- Go `map[LabelName]LabelValue`, as its entries in `range` order. -/
abbrev Labels := List (String × String)

structure Metadata where
  Labels : Option Labels
  Metric : String
  Help : String
  deriving DecidableEq, Repr

structure Tcp where
  Port : Int
  deriving DecidableEq, Repr

structure Http where
  Scheme : String
  Host : String
  Port : Int
  Path : String
  Method : String
  deriving DecidableEq, Repr

structure Exec where
  Command : List String
  deriving DecidableEq, Repr

structure IsLive where
  Tcp : Option Tcp
  Http : Option Http
  Exec : Option Exec
  DelaySeconds : String
  deriving DecidableEq, Repr

structure Spec where
  ALive : Option IsLive
  deriving DecidableEq, Repr

structure Config where
  Kind : String
  Metadata : Option Metadata
  Spec : Option Spec
  original : String
  deriving DecidableEq, Repr

/-! ## The outside world -/

deriving instance DecidableEq for Except

/-- The fields of Go `url.URL` that carry text. -/
structure URL where
  Scheme : String
  Opaque : String
  Host : String
  Path : String
  RawQuery : String
  Fragment : String
  deriving DecidableEq, Repr

/-- A Go `http.Request` as built by `http.NewRequest(method, url, body)`. -/
structure Request where
  Method : String
  URL : String
  Body : String
  deriving DecidableEq, Repr

/-- A Go `http.Response`: status code and the result of reading the body to its end. -/
structure Response where
  StatusCode : Int
  Body : Except String String

/-- A Go `http.Client`, reduced to the TLS setting the package chooses. -/
structure Client where
  InsecureSkipVerify : Bool
  deriving DecidableEq, Repr

/-- External calls a probe can make. -/
inductive Effect where
  | resolve (net addr : String) : Effect
  | dial (net raddr : String) : Effect
  | httpDo (client : Client) (req : Request) : Effect
  | exec (name : String) (args : List String) : Effect
  deriving DecidableEq, Repr

/-- Everything the package reaches outside its own code. -/
structure World where
  /-- Go `filepath.Glob`. -/
  Glob : String → Except String (List String)
  /-- Go `ioutil.ReadFile`. -/
  ReadFile : String → Except String String
  /-- Go `yaml.Unmarshal` into a fresh `Config`. -/
  Unmarshal : String → Except String Config
  /-- Go `net.ResolveTCPAddr`. -/
  ResolveTCPAddr : String → String → Except String String
  /-- Go `net.DialTCP` with a nil local address. -/
  DialTCP : String → String → Except String Unit
  /-- Go `url.Parse`. -/
  Parse : String → Except String URL
  /-- Go `net.JoinHostPort`. -/
  JoinHostPort : String → String → String
  /-- Go `(*url.URL).String`. -/
  URLString : URL → String
  /-- Go `http.NewRequest`. -/
  NewRequest : String → String → String → Except String Request
  /-- Go `(*http.Client).Do`. -/
  Do : Client → Request → Except String Response
  /-- Go `exec.Command(name, args...).CombinedOutput()`. -/
  CombinedOutput : String → List String → Except String String

/-! ## `config_yaml.go` -/

/-- Go `(*IsLive).Validate`. -/
def IsLive.Validate (ls : Option IsLive) (key : String) : Bool :=
  match ls with
  | none => false
  | some l =>
    if ToUpper key == "TCP" then l.Tcp.isSome
    else if ToUpper key == "HTTP" then l.Http.isSome
    else if ToUpper key == "EXEC" then l.Exec.isSome
    else false

/-- Go `Load`. -/
def Load (W : World) (s : String) : Except String Config :=
  match W.Unmarshal s with
  | .error err => .error err
  | .ok cfg => .ok { cfg with original := s }

/-- Go `LoadFile`. -/
def LoadFile (W : World) (filename : String) : Except String Config :=
  match W.ReadFile filename with
  | .error err => .error err
  | .ok content =>
    match Load W content with
    | .error err => .error ("parsing YAML file " ++ filename ++ ": " ++ err)
    | .ok cfg => .ok cfg

/-- Go `LoadFolderFiles`; the returned error is always `nil`. -/
def LoadFolderFiles (W : World) (folderPath : String) : List String × GoError :=
  match W.Glob (TrimSuffix folderPath "/" ++ "/*.yml") with
  | .error _ => ([], none)
  | .ok fileList => (fileList.foldl (fun results filename => results ++ [filename]) [], none)

/-- The loop of `MetricInfo` over the label map: each entry appends `k="v", `. -/
def labelPairs (m : Labels) : String :=
  m.foldl (fun labels kv => labels ++ (kv.1 ++ "=\"" ++ kv.2 ++ "\", ")) ""

/-- The value of the variable `labels` of `MetricInfo` after its `if`: the
identifier written at the start of the sample line. -/
def sampleIdent (metric : String) (m : Labels) : String :=
  if len (labelPairs m) != 0 then
    metric ++ "\x7b" ++ TrimSuffix (labelPairs m) ", " ++ "\x7d"
  else metric

/-- Go `(*Config).MetricInfo`.  `*c.Metadata.Labels` panics when the metadata
block or the labels pointer is nil. -/
def MetricInfo (c : Config) (value : Int) : Outcome String :=
  match c.Metadata with
  | none => .panic
  | some md =>
    match md.Labels with
    | none => .panic
    | some m =>
      .ret ("# HELP " ++ (md.Metric ++ " " ++ md.Help) ++ "\n# TYPE " ++ md.Metric
        ++ " gauge\n" ++ sampleIdent md.Metric m ++ " " ++ Itoa value ++ "\n")

/-- Go `(*Tcp).Healthy`. -/
def Tcp.Healthy (W : World) (t : Tcp) : Int × List Effect :=
  if t.Port ≤ minPort ∨ t.Port ≥ MaxPort then (0, [])
  else
    let addr := "0.0.0.0:" ++ Itoa t.Port
    match W.ResolveTCPAddr network4 addr with
    | .error _ => (0, [.resolve network4 addr])
    | .ok tcpAddr =>
      match W.DialTCP network tcpAddr with
      | .error _ => (0, [.resolve network4 addr, .dial network tcpAddr])
      | .ok _ => (1, [.resolve network4 addr, .dial network tcpAddr])

/-- Go `getHttpClient`. -/
def getHttpClient (verify : Bool) : Client :=
  if verify then { InsecureSkipVerify := true } else { InsecureSkipVerify := false }

/-- Go `response`. -/
def response (W : World) (request : Except String Request) (verify : Bool) :
    Int × List Effect :=
  match request with
  | .error _ => (0, [])
  | .ok req =>
    let client := getHttpClient verify
    match W.Do client req with
    | .error _ => (0, [.httpDo client req])
    | .ok resp =>
      match resp.Body with
      | .error _ => (0, [.httpDo client req])
      | .ok _ =>
        if resp.StatusCode ≥ 200 ∧ resp.StatusCode < 300 then (1, [.httpDo client req])
        else (0, [.httpDo client req])

/-- Go `Get`. -/
def Get (W : World) (url : String) (verify : Bool) : Int × List Effect :=
  response W (W.NewRequest "GET" url "") verify

/-- Go `Post`. -/
def Post (W : World) (url : String) (verify : Bool) : Int × List Effect :=
  response W (W.NewRequest "POST" url "") verify

/-- Go `Head`. -/
def Head (W : World) (url : String) (verify : Bool) : Int × List Effect :=
  response W (W.NewRequest "HEAD" url "") verify

/-- Go `FormatURL`. -/
def FormatURL (W : World) (scheme host : String) (port : Int) (path : String) : URL :=
  let u : URL :=
    match W.Parse path with
    | .error _ =>
      { Scheme := "", Opaque := "", Host := "", Path := path, RawQuery := "", Fragment := "" }
    | .ok u => u
  { u with Scheme := scheme, Host := W.JoinHostPort host (Itoa port) }

/-- Go `(*Http).Healthy`. -/
def Http.Healthy (W : World) (t : Http) : Int × List Effect :=
  if t.Port ≤ minPort ∨ t.Port ≥ MaxPort then (0, [])
  else
    let urlPath := W.URLString (FormatURL W t.Scheme t.Host t.Port t.Path)
    let verify := if HasPrefix (ToLower urlPath) "https" then true else false
    if t.Method == "GET" then Get W urlPath verify
    else if t.Method == "POST" then Post W urlPath verify
    else if t.Method == "HEAD" then Head W urlPath verify
    else (0, [])

/-- Go `(*Exec).Healthy`. -/
def Exec.Healthy (W : World) (t : Exec) : Int × List Effect :=
  if t.Command.length ≤ 0 then (0, [])
  else
    match t.Command with
    | [] => (0, [])
    | name :: args =>
      match W.CombinedOutput name args with
      | .error _ => (0, [.exec name args])
      | .ok _ => (1, [.exec name args])

/-! ## `config_collector.go` -/

/-- The body of the loop of `metricJoin`: the new value of `res`. -/
def joinStep (res v : String) : String :=
  if len res == 0 || HasSuffix res "\n" then res ++ v else res ++ "\n" ++ v

/-- Go `metricJoin`. -/
def metricJoin (s : List String) : String :=
  s.foldl joinStep ""

/-! ## Vocabulary of the statements -/

/-- The text ends in a newline. -/
def EndsInNewline (s : String) : Prop := ['\n'] <:+ s.data

/-- The text begins with a newline. -/
def BeginsWithNewline (s : String) : Prop := ['\n'] <+: s.data

/-- The text contains two consecutive newline characters (a blank line). -/
def HasBlankLine (s : String) : Prop := ['\n', '\n'] <:+: s.data

instance (s : String) : Decidable (EndsInNewline s) :=
  inferInstanceAs (Decidable (['\n'] <:+ s.data))

instance (s : String) : Decidable (BeginsWithNewline s) :=
  inferInstanceAs (Decidable (['\n'] <+: s.data))

instance (s : String) : Decidable (HasBlankLine s) :=
  inferInstanceAs (Decidable (['\n', '\n'] <:+: s.data))

/-- The return `config.MetricInfo(v), nil` of `YAMLMetric`. -/
def metricReturn (config : Config) (v : Int) : Outcome (String × GoError) :=
  match MetricInfo config v with
  | .panic => .panic
  | .ret data => .ret (data, none)

/-- Go `YAMLMetric`.  `config.Spec.ALive` panics when the spec pointer is nil. -/
def YAMLMetric (W : World) (filePath : String) : Outcome (String × GoError) :=
  match LoadFile W filePath with
  | .error err => .ret ("", some err)
  | .ok config =>
    match config.Spec with
    | none => .panic
    | some spec =>
      match spec.ALive with
      | none => .ret ("", some (filePath ++ " parser yaml error."))
      | some alive =>
        if IsLive.Validate (some alive) "tcp" then
          match alive.Tcp with
          | none => .panic
          | some t => metricReturn config (t.Healthy W).1
        else if IsLive.Validate (some alive) "exec" then
          match alive.Exec with
          | none => .panic
          | some e => metricReturn config (e.Healthy W).1
        else if IsLive.Validate (some alive) "http" then
          match alive.Http with
          | none => .panic
          | some h => metricReturn config (h.Healthy W).1
        else .ret ("", none)

/-- The `for` loop of `GetConfigCollectorMetrics`: a file whose `YAMLMetric`
returns an error is skipped, every other returned string is appended. -/
def collect (W : World) : List String → List String → Outcome (List String)
  | [], metricList => .ret metricList
  | filename :: rest, metricList =>
    match YAMLMetric W filename with
    | .panic => .panic
    | .ret (_, some _) => collect W rest metricList
    | .ret (data, none) => collect W rest (metricList ++ [data])

/-- Go `GetConfigCollectorMetrics`. -/
def GetConfigCollectorMetrics (W : World) (s : String) : Outcome String :=
  match LoadFolderFiles W ConfigPath with
  | (_, some _) => .ret (metricJoin [s])
  | (fileList, none) =>
    match collect W fileList [s] with
    | .panic => .panic
    | .ret metricList => .ret (metricJoin metricList)


/-- The sample identifier as the specification words it: the bare metric name
when there are no labels, otherwise the name followed by the pairs `k="v"`
joined by `", "` inside braces. -/
def specSampleIdent (metric : String) (m : Labels) : String :=
  if m = [] then metric
  else metric ++ "\x7b" ++ ", ".intercalate (m.map fun kv => kv.1 ++ "=\"" ++ kv.2 ++ "\"")
    ++ "\x7d"

/-- The configuration of the specification scenario: metric `probe_up`, help
`svc up`, labels `env: prod`, a TCP probe on port 9999. -/
def probeUp : Config where
  Kind := "probe"
  Metadata := some { Labels := some [("env", "prod")], Metric := "probe_up", Help := "svc up" }
  Spec := some ⟨some { Tcp := some ⟨9999⟩, Http := none, Exec := none, DelaySeconds := "" }⟩
  original := "kind: probe\nmetadata:\n  labels:\n    env: prod\n  metric: probe_up\n"
    ++ "  help: svc up\nspec:\n  alive:\n    tcp:\n      port: 9999\n"

/-! ## Example worlds -/

/-- A world whose directory is empty and in which every external call fails. -/
def deadWorld : World where
  Glob _ := .ok []
  ReadFile _ := .error "open: no such file or directory"
  Unmarshal _ := .error "yaml: unmarshal errors"
  ResolveTCPAddr _ _ := .error "unknown network"
  DialTCP _ _ := .error "connect: connection refused"
  Parse p := .ok { Scheme := "", Opaque := "", Host := "", Path := p, RawQuery := "", Fragment := "" }
  JoinHostPort h p := h ++ ":" ++ p
  URLString u := u.Scheme ++ "://" ++ u.Host ++ u.Path
  NewRequest m u b := .ok { Method := m, URL := u, Body := b }
  Do _ _ := .error "connect: connection refused"
  CombinedOutput _ _ := .error "exit status 1"

/-- A world in which every address resolves, every dial and request succeeds
with status 200, and every command exits with status 0. -/
def liveWorld : World :=
  { deadWorld with
    ResolveTCPAddr := fun _ addr => .ok addr
    DialTCP := fun _ _ => .ok ()
    Do := fun _ _ => .ok { StatusCode := 200, Body := .ok "" }
    CombinedOutput := fun _ _ => .ok "" }

/-- The world `W` with the directory listing replaced by `files`. -/
def World.withFiles (W : World) (files : List String) : World :=
  { W with Glob := fun _ => .ok files }

/-- The world `W` with a directory holding the given files: path, text, and
the result of decoding the text. -/
def World.withConfigs (W : World) (fs : List (String × String × Except String Config)) : World :=
  { W with
    Glob := fun _ => .ok (fs.map Prod.fst)
    ReadFile := fun p =>
      match fs.lookup p with
      | some (text, _) => .ok text
      | none => .error "open: no such file or directory"
    Unmarshal := fun s =>
      match (fs.map Prod.snd).lookup s with
      | some r => r
      | none => .error "yaml: unmarshal errors" }

/-- A configuration with an alive block in which both `http` and `exec` are
populated and `tcp` is absent. -/
def httpAndExec : Config where
  Kind := "probe"
  Metadata := some { Labels := some [], Metric := "svc_up", Help := "svc up" }
  Spec := some ⟨some
    { Tcp := none, Http := some ⟨"http", "127.0.0.1", 8080, "/healthz", "GET"⟩,
      Exec := some ⟨["true"]⟩, DelaySeconds := "" }⟩
  original := "kind: probe\nmetadata:\n  labels: \x7b\x7d\n  metric: svc_up\n  help: svc up\n"
    ++ "spec:\n  alive:\n    http:\n      scheme: http\n      host: 127.0.0.1\n"
    ++ "      port: 8080\n      path: /healthz\n      method: GET\n"
    ++ "    exec:\n      command: [\"true\"]\n"

/-- A configuration whose alive block is present with no probe populated. -/
def noProbe : Config where
  Kind := "probe"
  Metadata := some { Labels := some [], Metric := "svc_up", Help := "svc up" }
  Spec := some ⟨some { Tcp := none, Http := none, Exec := none, DelaySeconds := "5" }⟩
  original := "kind: probe\nmetadata:\n  labels: \x7b\x7d\n  metric: svc_up\n  help: svc up\n"
    ++ "spec:\n  alive:\n    delayseconds: \"5\"\n"

/-- A configuration whose `spec` block has no `alive` key. -/
def noAlive : Config where
  Kind := "probe"
  Metadata := some { Labels := some [], Metric := "svc_up", Help := "svc up" }
  Spec := some ⟨none⟩
  original := "kind: probe\nmetadata:\n  labels: \x7b\x7d\n  metric: svc_up\n  help: svc up\n"
    ++ "spec: \x7b\x7d\n"

/-- A configuration without a `spec` block. -/
def noSpec : Config where
  Kind := "probe"
  Metadata := some { Labels := some [], Metric := "svc_up", Help := "svc up" }
  Spec := none
  original := "kind: probe\nmetadata:\n  labels: \x7b\x7d\n  metric: svc_up\n  help: svc up\n"

/-- A TCP configuration whose metadata has no `labels` key. -/
def noLabels : Config where
  Kind := "probe"
  Metadata := some { Labels := none, Metric := "svc_up", Help := "svc up" }
  Spec := some ⟨some { Tcp := some ⟨22⟩, Http := none, Exec := none, DelaySeconds := "" }⟩
  original := "kind: probe\nmetadata:\n  metric: svc_up\n  help: svc up\n"
    ++ "spec:\n  alive:\n    tcp:\n      port: 22\n"

/-- A directory with the single file `both.yml` holding `httpAndExec`, in a
world where commands exit with status 0 and every network call fails. -/
def execOnlyWorld : World :=
  World.withConfigs { deadWorld with CombinedOutput := fun _ _ => .ok "" }
    [("/etc/node_exporter/yml/both.yml", httpAndExec.original, .ok httpAndExec)]

/-- A directory with one file that is not valid YAML and one file whose `spec`
block has no `alive` key. -/
def brokenDir : World :=
  deadWorld.withConfigs
    [("/etc/node_exporter/yml/a.yml", "kind: [", .error "yaml: line 1: did not find expected node"),
     ("/etc/node_exporter/yml/b.yml", noAlive.original, .ok noAlive)]

/-- A directory with the single file `c.yml`, which has no `spec` block. -/
def noSpecDir : World :=
  deadWorld.withConfigs [("/etc/node_exporter/yml/c.yml", noSpec.original, .ok noSpec)]

/-- A directory with the valid file `probe_up.yml` and the file `nolabels.yml`,
whose metadata has no `labels` key. -/
def mixedDir : World :=
  deadWorld.withConfigs
    [("/etc/node_exporter/yml/nolabels.yml", noLabels.original, .ok noLabels),
     ("/etc/node_exporter/yml/probe_up.yml", probeUp.original, .ok probeUp)]

/-- A directory with a file that is not valid YAML and the valid TCP file
`probe_up.yml`, whose port accepts connections. -/
def oneBadOneTcp : World :=
  liveWorld.withConfigs
    [("/etc/node_exporter/yml/a.yml", "kind: [", .error "yaml: line 1: did not find expected node"),
     ("/etc/node_exporter/yml/probe_up.yml", probeUp.original, .ok probeUp)]

/-- A directory with the single file `idle.yml`, whose alive block has no probe. -/
def idleDir : World :=
  deadWorld.withConfigs [("/etc/node_exporter/yml/idle.yml", noProbe.original, .ok noProbe)]

/-! ## Strings -/

theorem utf8go_pos_of_ne_nil : ∀ (cs : List Char), cs ≠ [] → 0 < String.utf8ByteSize.go cs
  | [], h => absurd rfl h
  | c :: cs, _ => by
    simp only [String.utf8ByteSize.go]
    have := Char.utf8Size_pos c
    omega

theorem len_eq_zero_iff (s : String) : len s = 0 ↔ s = "" := by
  constructor
  · intro h
    by_contra hne
    have hd : s.data ≠ [] := fun hd => hne (String.ext hd)
    have := utf8go_pos_of_ne_nil s.data hd
    have h2 : len s = String.utf8ByteSize.go s.data := by
      cases s; rfl
    omega
  · rintro rfl; rfl

theorem hasSuffix_iff (s suffix : String) : HasSuffix s suffix = true ↔ suffix.data <:+ s.data := by
  unfold HasSuffix
  simp only [Bool.and_eq_true, decide_eq_true_eq, beq_iff_eq, String.length]
  constructor
  · rintro ⟨_, h⟩
    have key := List.take_append_drop (s.data.length - suffix.data.length) s.data
    rw [h] at key
    exact ⟨_, key⟩
  · rintro ⟨t, ht⟩
    rw [← ht]
    simp

theorem trimSuffix_append (a suffix : String) : TrimSuffix (a ++ suffix) suffix = a := by
  have h : HasSuffix (a ++ suffix) suffix = true := by
    rw [hasSuffix_iff]; exact ⟨a.data, by simp⟩
  unfold TrimSuffix
  rw [if_pos h]
  apply String.ext
  show List.take ((a ++ suffix).data.length - suffix.data.length) (a ++ suffix).data = a.data
  rw [String.data_append, List.length_append, Nat.add_sub_cancel, List.take_left']
  rfl


theorem hasSuffix_newline_iff (s : String) : HasSuffix s "\n" = true ↔ EndsInNewline s :=
  hasSuffix_iff s "\n"

theorem joinStep_of_fresh (res v : String) (h : res = "" ∨ EndsInNewline res) :
    joinStep res v = res ++ v := by
  unfold joinStep
  have : (len res == 0 || HasSuffix res "\n") = true := by
    rcases h with h | h
    · simp [(len_eq_zero_iff res).2 h]
    · simp [(hasSuffix_newline_iff res).2 h]
  rw [if_pos this]

theorem joinStep_of_open (res v : String) (h1 : res ≠ "") (h2 : ¬ EndsInNewline res) :
    joinStep res v = res ++ "\n" ++ v := by
  unfold joinStep
  have : ¬ (len res == 0 || HasSuffix res "\n") = true := by
    simp only [Bool.or_eq_true, beq_iff_eq, not_or]
    exact ⟨fun h => h1 ((len_eq_zero_iff res).1 h), fun h => h2 ((hasSuffix_newline_iff res).1 h)⟩
  rw [if_neg this]

theorem metricJoin_snoc (blocks : List String) (v : String) :
    metricJoin (blocks ++ [v]) = joinStep (metricJoin blocks) v := by
  simp [metricJoin, List.foldl_append]

/-- Two consecutive newlines in `a ++ b` lie in `a`, lie in `b`, or straddle the seam. -/
theorem blank_append : ∀ (a b : List Char), ['\n', '\n'] <:+: a ++ b →
    ['\n', '\n'] <:+: a ∨ ['\n', '\n'] <:+: b ∨ (['\n'] <:+ a ∧ ['\n'] <+: b)
  | [], b, h => Or.inr (Or.inl (by simpa using h))
  | c :: a, b, h => by
    rw [List.cons_append, List.infix_cons_iff] at h
    rcases h with h | h
    · cases a with
      | nil =>
        simp only [List.nil_append, List.cons_prefix_cons] at h
        exact Or.inr (Or.inr ⟨by rw [h.1], h.2⟩)
      | cons d a =>
        simp only [List.cons_append, List.cons_prefix_cons, List.nil_prefix, and_true] at h
        obtain ⟨h1, h2⟩ := h
        subst h1 h2
        exact Or.inl (List.IsPrefix.isInfix ⟨a, rfl⟩)
    · rcases blank_append a b h with h | h | ⟨h1, h2⟩
      · exact Or.inl (List.infix_cons h)
      · exact Or.inr (Or.inl h)
      · exact Or.inr (Or.inr ⟨h1.trans (List.suffix_cons c a), h2⟩)

theorem joinStep_no_blank (res v : String) (hr : ¬ HasBlankLine res) (hv : ¬ HasBlankLine v)
    (hb : ¬ BeginsWithNewline v) : ¬ HasBlankLine (joinStep res v) := by
  by_cases h : res = "" ∨ EndsInNewline res
  · rw [joinStep_of_fresh res v h]
    intro hh
    unfold HasBlankLine at hh
    rw [String.data_append] at hh
    rcases blank_append _ _ hh with h1 | h1 | ⟨_, h1⟩
    · exact hr h1
    · exact hv h1
    · exact hb h1
  · rw [not_or] at h
    rw [joinStep_of_open res v h.1 h.2]
    intro hh
    unfold HasBlankLine at hh
    rw [String.data_append] at hh
    rcases blank_append _ _ hh with h1 | h1 | ⟨_, h1⟩
    · rw [String.data_append] at h1
      rcases blank_append _ _ h1 with h2 | h2 | ⟨h2, _⟩
      · exact hr h2
      · have := h2.length_le
        simp at this
      · exact h.2 h2
    · exact hv h1
    · exact hb h1

theorem foldl_joinStep_no_blank : ∀ (blocks : List String) (res : String),
    ¬ HasBlankLine res → (∀ b ∈ blocks, ¬ HasBlankLine b ∧ ¬ BeginsWithNewline b) →
    ¬ HasBlankLine (blocks.foldl joinStep res)
  | [], _, hr, _ => hr
  | v :: blocks, res, hr, hb => by
    rw [List.foldl_cons]
    refine foldl_joinStep_no_blank blocks _ ?_ (fun b hbm => hb b (List.mem_cons_of_mem _ hbm))
    exact joinStep_no_blank res v hr (hb v (List.mem_cons_self _ _)).1
      (hb v (List.mem_cons_self _ _)).2

/-- C10: `metricJoin` never creates a blank line: when no block contains two
consecutive newlines and no block begins with a newline, the joined text
contains no two consecutive newlines; and the block `v` that follows the
accumulated text `metricJoin blocks` is preceded by an inserted newline exactly
when that text is non-empty and does not already end in a newline. -/
theorem metricJoin_no_redundant_blank_line :
    (∀ blocks : List String,
      (∀ b ∈ blocks, ¬ HasBlankLine b ∧ ¬ BeginsWithNewline b) →
        ¬ HasBlankLine (metricJoin blocks)) ∧
    (∀ (blocks : List String) (v : String),
      (metricJoin blocks ≠ "" ∧ ¬ EndsInNewline (metricJoin blocks) →
        metricJoin (blocks ++ [v]) = metricJoin blocks ++ "\n" ++ v) ∧
      (¬ (metricJoin blocks ≠ "" ∧ ¬ EndsInNewline (metricJoin blocks)) →
        metricJoin (blocks ++ [v]) = metricJoin blocks ++ v)) := by
  refine ⟨fun blocks hb => ?_, fun blocks v => ⟨fun h => ?_, fun h => ?_⟩⟩
  · exact foldl_joinStep_no_blank blocks "" (by decide) hb
  · rw [metricJoin_snoc, joinStep_of_open _ _ h.1 h.2]
  · rw [metricJoin_snoc, joinStep_of_fresh]
    by_cases h1 : metricJoin blocks = ""
    · exact Or.inl h1
    · exact Or.inr (by_contra fun h2 => h ⟨h1, h2⟩)

/-- Witness of C10 on the blocks `X`, `a⏎`, `b`. -/
theorem metricJoin_no_redundant_blank_line_witness :
    ¬ HasBlankLine (metricJoin ["X", "a\n", "b"]) ∧
      metricJoin (["X"] ++ ["a\n"]) = metricJoin ["X"] ++ "\n" ++ "a\n" ∧
      metricJoin (["X", "a\n"] ++ ["b"]) = metricJoin ["X", "a\n"] ++ "b" :=
  ⟨metricJoin_no_redundant_blank_line.1 ["X", "a\n", "b"] (by decide),
   (metricJoin_no_redundant_blank_line.2 ["X"] "a\n").1 (by decide),
   (metricJoin_no_redundant_blank_line.2 ["X", "a\n"] "b").2 (by decide)⟩


/-! ## The formatter -/

/-- The loop body of `MetricInfo` over the label entries. -/
theorem labelPairs_snoc (m : Labels) (kv : String × String) :
    labelPairs (m ++ [kv]) = labelPairs m ++ (kv.1 ++ "=\"" ++ kv.2 ++ "\", ") := by
  simp [labelPairs, List.foldl_append]

theorem labelPairs_ne_empty (m : Labels) (h : m ≠ []) : labelPairs m ≠ "" := by
  rcases List.eq_nil_or_concat m with h0 | ⟨init, kv, rfl⟩
  · exact absurd h0 h
  · rw [List.concat_eq_append, labelPairs_snoc]
    intro hh
    have := congrArg String.length hh
    simp only [String.length_append] at this
    have h3 : ("\", ").length = 3 := by decide
    have h0 : ("").length = 0 := by decide
    omega

theorem foldl_pairs_go : ∀ (m : Labels) (acc : String),
    m.foldl (fun labels kv => labels ++ (kv.1 ++ "=\"" ++ kv.2 ++ "\", ")) (acc ++ ", ") =
      String.intercalate.go acc ", " (m.map fun kv => kv.1 ++ "=\"" ++ kv.2 ++ "\"") ++ ", "
  | [], acc => rfl
  | kv :: m, acc => by
    rw [List.foldl_cons, List.map_cons, String.intercalate.go]
    rw [← foldl_pairs_go m (acc ++ ", " ++ (kv.1 ++ "=\"" ++ kv.2 ++ "\""))]
    congr 1
    apply String.ext
    simp [String.data_append]

theorem labelPairs_eq_intercalate (m : Labels) (h : m ≠ []) :
    labelPairs m =
      ", ".intercalate (m.map fun kv => kv.1 ++ "=\"" ++ kv.2 ++ "\"") ++ ", " := by
  cases m with
  | nil => exact absurd rfl h
  | cons kv m =>
    rw [List.map_cons, String.intercalate, ← foldl_pairs_go]
    unfold labelPairs
    rw [List.foldl_cons]
    congr 1
    apply String.ext
    simp [String.data_append]

theorem sampleIdent_eq_spec (metric : String) (m : Labels) :
    sampleIdent metric m = specSampleIdent metric m := by
  unfold sampleIdent specSampleIdent
  by_cases h : m = []
  · subst h
    rfl
  · have hne : (len (labelPairs m) != 0) = true := by
      simp only [bne_iff_ne, ne_eq, len_eq_zero_iff]
      exact labelPairs_ne_empty m h
    rw [if_pos hne, if_neg h, labelPairs_eq_intercalate m h, trimSuffix_append]


/-- The block `MetricInfo` returns when metadata and labels are present. -/
theorem MetricInfo_present (c : Config) (md : Metadata) (m : Labels) (v : Int)
    (hmd : c.Metadata = some md) (hl : md.Labels = some m) :
    MetricInfo c v = .ret ("# HELP " ++ md.Metric ++ " " ++ md.Help ++ "\n# TYPE " ++ md.Metric
      ++ " gauge\n" ++ specSampleIdent md.Metric m ++ " " ++ Itoa v ++ "\n") := by
  unfold MetricInfo
  rw [hmd]
  simp only [hl, sampleIdent_eq_spec, String.append_assoc]

/-- C6: for a configuration with metric name `m`, help text `h` and a present
labels mapping, `MetricInfo v` is exactly
`# HELP m h⏎# TYPE m gauge⏎id decimal(v)⏎`, where `id` is `m` when there are no
labels and otherwise `m` followed, in braces, by the pairs `k="v"` joined by
`", "` in iteration order. -/
theorem MetricInfo_exact_format (c : Config) (md : Metadata) (m : Labels) (v : Int)
    (hmd : c.Metadata = some md) (hl : md.Labels = some m) :
    MetricInfo c v = .ret ("# HELP " ++ md.Metric ++ " " ++ md.Help ++ "\n# TYPE " ++ md.Metric
      ++ " gauge\n" ++ specSampleIdent md.Metric m ++ " " ++ Itoa v ++ "\n") :=
  MetricInfo_present c md m v hmd hl

/-- Witness of C6: the scenario `probe_up`, `svc up`, `env: prod`, value 0. -/
theorem MetricInfo_exact_format_witness :
    MetricInfo probeUp 0 =
      .ret "# HELP probe_up svc up\n# TYPE probe_up gauge\nprobe_up\x7benv=\"prod\"\x7d 0\n" :=
  (MetricInfo_exact_format probeUp
    { Labels := some [("env", "prod")], Metric := "probe_up", Help := "svc up" }
    [("env", "prod")] 0 rfl rfl).trans (by decide)

theorem not_suffix_of_quote (y : String) : ¬ (", ".data <:+ (y ++ "\"").data) := by
  rintro ⟨t, ht⟩
  have h := congrArg List.getLast? ht
  rw [String.data_append] at h
  have e1 : (", ").data = [',', ' '] := rfl
  have e2 : ("\"").data = ['"'] := rfl
  rw [e1, e2] at h
  simp at h

/-- C7: for every label map, the label segment `seg` that `MetricInfo` writes
after the metric name on the sample line is empty if and only if the map is
empty; for a non-empty map it is `inner` wrapped in braces, and `inner` does not
end with `", "`. -/
theorem MetricInfo_label_segment (c : Config) (md : Metadata) (m : Labels) (v : Int)
    (hmd : c.Metadata = some md) (hl : md.Labels = some m) :
    ∃ seg : String,
      MetricInfo c v = .ret ("# HELP " ++ md.Metric ++ " " ++ md.Help ++ "\n# TYPE " ++ md.Metric
        ++ " gauge\n" ++ md.Metric ++ seg ++ " " ++ Itoa v ++ "\n") ∧
      (seg = "" ↔ m = []) ∧
      (m ≠ [] → ∃ inner : String,
        seg = "\x7b" ++ inner ++ "\x7d" ∧ ¬ (", ".data <:+ inner.data)) := by
  have hfmt : ∀ seg : String, sampleIdent md.Metric m = md.Metric ++ seg →
      MetricInfo c v = .ret ("# HELP " ++ md.Metric ++ " " ++ md.Help ++ "\n# TYPE " ++ md.Metric
        ++ " gauge\n" ++ md.Metric ++ seg ++ " " ++ Itoa v ++ "\n") := by
    intro seg hseg
    unfold MetricInfo
    rw [hmd]
    simp only [hl, hseg, String.append_assoc]
  rcases List.eq_nil_or_concat m with h0 | ⟨init, kv, hm⟩
  · subst h0
    refine ⟨"", hfmt "" ?_, by simp, fun h => absurd rfl h⟩
    show md.Metric = md.Metric ++ ""
    simp
  · have hne : m ≠ [] := by rw [hm]; simp
    have hlen : (len (labelPairs m) != 0) = true := by
      simp only [bne_iff_ne, ne_eq, len_eq_zero_iff]
      exact labelPairs_ne_empty m hne
    have hpairs : labelPairs m =
        (labelPairs init ++ kv.1 ++ "=\"" ++ kv.2 ++ "\"") ++ ", " := by
      rw [hm, List.concat_eq_append, labelPairs_snoc]
      apply String.ext
      simp [String.data_append]
    have hid : sampleIdent md.Metric m = md.Metric ++
        ("\x7b" ++ (labelPairs init ++ kv.1 ++ "=\"" ++ kv.2 ++ "\"") ++ "\x7d") := by
      unfold sampleIdent
      rw [if_pos hlen, hpairs, trimSuffix_append]
      simp only [String.append_assoc]
    refine ⟨_, hfmt _ hid, ?_, fun _ => ⟨_, rfl, not_suffix_of_quote _⟩⟩
    constructor
    · intro h
      have := congrArg String.length h
      simp only [String.length_append] at this
      have h1 : ("\x7b").length = 1 := by decide
      have h0 : ("").length = 0 := by decide
      omega
    · intro h
      exact absurd h hne

/-- Witness of C7 on the scenario configuration, whose label map is not empty. -/
theorem MetricInfo_label_segment_witness :
    ∃ seg inner : String,
      MetricInfo probeUp 0 = .ret ("# HELP " ++ "probe_up" ++ " " ++ "svc up" ++ "\n# TYPE "
        ++ "probe_up" ++ " gauge\n" ++ "probe_up" ++ seg ++ " " ++ Itoa 0 ++ "\n") ∧
      seg ≠ "" ∧ seg = "\x7b" ++ inner ++ "\x7d" ∧ ¬ (", ".data <:+ inner.data) := by
  obtain ⟨seg, h1, h2, h3⟩ := MetricInfo_label_segment probeUp
    { Labels := some [("env", "prod")], Metric := "probe_up", Help := "svc up" }
    [("env", "prod")] 0 rfl rfl
  obtain ⟨inner, h4, h5⟩ := h3 (by decide)
  exact ⟨seg, inner, h1, fun h => absurd (h2.1 h) (by decide), h4, h5⟩


/-! ## The collector -/

theorem empty_append (s : String) : "" ++ s = s := by
  apply String.ext
  simp [String.data_append]

theorem append_empty (s : String) : s ++ "" = s := by
  apply String.ext
  simp [String.data_append]

theorem metricJoin_singleton (s : String) : metricJoin [s] = s := by
  show joinStep "" s = s
  rw [joinStep_of_fresh "" s (Or.inl rfl), empty_append]

theorem foldl_snoc_eq : ∀ (l acc : List String),
    l.foldl (fun results filename => results ++ [filename]) acc = acc ++ l
  | [], acc => by simp
  | a :: l, acc => by
    rw [List.foldl_cons, foldl_snoc_eq l]
    simp

theorem loadFolderFiles_snd (W : World) (p : String) : (LoadFolderFiles W p).2 = none := by
  unfold LoadFolderFiles
  split <;> rfl

theorem getMetrics_eq (W : World) (s : String) :
    GetConfigCollectorMetrics W s =
      match collect W (LoadFolderFiles W ConfigPath).1 [s] with
      | .panic => .panic
      | .ret metricList => .ret (metricJoin metricList) := by
  unfold GetConfigCollectorMetrics
  have h := loadFolderFiles_snd W ConfigPath
  rcases hp : LoadFolderFiles W ConfigPath with ⟨files, err⟩
  rw [hp] at h
  simp only at h
  subst h
  rfl

theorem loadFolderFiles_withFiles (W : World) (files : List String) (p : String) :
    LoadFolderFiles (W.withFiles files) p = (files, none) := by
  simp [LoadFolderFiles, World.withFiles, foldl_snoc_eq]

theorem collect_skip_errors (W : World) : ∀ (files acc : List String),
    (∀ f ∈ files, ∃ d e, YAMLMetric W f = .ret (d, some e)) → collect W files acc = .ret acc
  | [], _, _ => rfl
  | f :: files, acc, h => by
    obtain ⟨d, e, hf⟩ := h f (List.mem_cons_self _ _)
    unfold collect
    rw [hf]
    exact collect_skip_errors W files acc (fun g hg => h g (List.mem_cons_of_mem _ hg))

/-- C8: when the scan finds no file, or when `YAMLMetric` returns an error for
every scanned file, `GetConfigCollectorMetrics X` returns exactly `X`. -/
theorem GetConfigCollectorMetrics_base_only (W : World) (X : String) :
    ((LoadFolderFiles W ConfigPath).1 = [] → GetConfigCollectorMetrics W X = .ret X) ∧
    ((∀ f ∈ (LoadFolderFiles W ConfigPath).1, ∃ d e, YAMLMetric W f = .ret (d, some e)) →
      GetConfigCollectorMetrics W X = .ret X) := by
  have key : (∀ f ∈ (LoadFolderFiles W ConfigPath).1, ∃ d e, YAMLMetric W f = .ret (d, some e)) →
      GetConfigCollectorMetrics W X = .ret X := by
    intro h
    rw [getMetrics_eq, collect_skip_errors W _ _ h]
    simp only [metricJoin_singleton]
  refine ⟨fun h0 => key ?_, key⟩
  rw [h0]
  intro f hf
  cases hf

/-- Witness of C8: an empty directory, and a directory with one unreadable YAML
file and one file without an alive block. -/
theorem GetConfigCollectorMetrics_base_only_witness :
    GetConfigCollectorMetrics deadWorld "X" = .ret "X" ∧
      GetConfigCollectorMetrics brokenDir "X" = .ret "X" :=
  ⟨(GetConfigCollectorMetrics_base_only deadWorld "X").1 (by decide),
   (GetConfigCollectorMetrics_base_only brokenDir "X").2 (by
      have hfiles : (LoadFolderFiles brokenDir ConfigPath).1 =
          ["/etc/node_exporter/yml/a.yml", "/etc/node_exporter/yml/b.yml"] := by decide
      intro f hf
      rw [hfiles] at hf
      simp only [List.mem_cons, List.mem_singleton, List.not_mem_nil, or_false] at hf
      rcases hf with rfl | rfl
      · exact ⟨"", "parsing YAML file /etc/node_exporter/yml/a.yml: "
          ++ "yaml: line 1: did not find expected node", by decide⟩
      · exact ⟨"", "/etc/node_exporter/yml/b.yml parser yaml error.", by decide⟩)⟩


/-! ## Dispatch in `YAMLMetric` -/

theorem validate_tcp (l : IsLive) : IsLive.Validate (some l) "tcp" = l.Tcp.isSome := by
  have h : ToUpper "tcp" = "TCP" := by decide
  simp [IsLive.Validate, h]

theorem validate_exec (l : IsLive) : IsLive.Validate (some l) "exec" = l.Exec.isSome := by
  have h : ToUpper "exec" = "EXEC" := by decide
  have h1 : ¬ ("EXEC" = "TCP") := by decide
  have h2 : ¬ ("EXEC" = "HTTP") := by decide
  simp [IsLive.Validate, h, h1, h2]

theorem validate_http (l : IsLive) : IsLive.Validate (some l) "http" = l.Http.isSome := by
  have h : ToUpper "http" = "HTTP" := by decide
  have h1 : ¬ ("HTTP" = "TCP") := by decide
  simp [IsLive.Validate, h, h1]

/-- `YAMLMetric` on a file that loads and has an alive block. -/
theorem YAMLMetric_alive (W : World) (f : String) (config : Config) (spec : Spec)
    (alive : IsLive) (hload : LoadFile W f = .ok config) (hs : config.Spec = some spec)
    (ha : spec.ALive = some alive) :
    YAMLMetric W f =
      match alive.Tcp, alive.Exec, alive.Http with
      | some t, _, _ => metricReturn config (t.Healthy W).1
      | none, some e, _ => metricReturn config (e.Healthy W).1
      | none, none, some h => metricReturn config (h.Healthy W).1
      | none, none, none => .ret ("", none) := by
  unfold YAMLMetric
  rw [hload]
  simp only [hs, ha, validate_tcp, validate_exec, validate_http]
  cases alive.Tcp <;> cases alive.Exec <;> cases alive.Http <;> simp

/-- C1 (as the code has it): for every parsed configuration with an alive block,
`YAMLMetric` evaluates the first populated variant in the order
TCP, Exec, HTTP: TCP whenever `tcp` is present, otherwise Exec whenever `exec`
is present, otherwise HTTP. -/
theorem YAMLMetric_priority (W : World) (f : String) (config : Config) (spec : Spec)
    (alive : IsLive) (hload : LoadFile W f = .ok config) (hs : config.Spec = some spec)
    (ha : spec.ALive = some alive) :
    (∀ t, alive.Tcp = some t → YAMLMetric W f = metricReturn config (t.Healthy W).1) ∧
    (alive.Tcp = none → ∀ e, alive.Exec = some e →
      YAMLMetric W f = metricReturn config (e.Healthy W).1) ∧
    (alive.Tcp = none → alive.Exec = none → ∀ h, alive.Http = some h →
      YAMLMetric W f = metricReturn config (h.Healthy W).1) := by
  rw [YAMLMetric_alive W f config spec alive hload hs ha]
  refine ⟨fun t ht => ?_, fun ht e he => ?_, fun ht he h hh => ?_⟩
  · rw [ht]
  · rw [ht, he]
  · rw [ht, he, hh]

/-- Witness of the priority order on `both.yml`: `exec` is evaluated before `http`. -/
theorem YAMLMetric_priority_witness :
    YAMLMetric execOnlyWorld "/etc/node_exporter/yml/both.yml" =
      metricReturn httpAndExec ((Exec.mk ["true"]).Healthy execOnlyWorld).1 :=
  (YAMLMetric_priority execOnlyWorld "/etc/node_exporter/yml/both.yml" httpAndExec
    ⟨some { Tcp := none, Http := some ⟨"http", "127.0.0.1", 8080, "/healthz", "GET"⟩,
            Exec := some ⟨["true"]⟩, DelaySeconds := "" }⟩
    { Tcp := none, Http := some ⟨"http", "127.0.0.1", 8080, "/healthz", "GET"⟩,
      Exec := some ⟨["true"]⟩, DelaySeconds := "" }
    (by decide) rfl rfl).2.1 rfl ⟨["true"]⟩ rfl

/-- C1 fails as stated: with `http` and `exec` present and `tcp` absent, in a
world where the command succeeds and the HTTP request fails, the HTTP check
gives 0 but the emitted block carries the value 1 of the Exec check. -/
theorem YAMLMetric_http_before_exec_counterexample :
    LoadFile execOnlyWorld "/etc/node_exporter/yml/both.yml" = .ok httpAndExec ∧
    (Http.Healthy execOnlyWorld ⟨"http", "127.0.0.1", 8080, "/healthz", "GET"⟩).1 = 0 ∧
    (Exec.Healthy execOnlyWorld ⟨["true"]⟩).1 = 1 ∧
    YAMLMetric execOnlyWorld "/etc/node_exporter/yml/both.yml" =
      .ret ("# HELP svc_up svc up\n# TYPE svc_up gauge\nsvc_up 1\n", none) ∧
    YAMLMetric execOnlyWorld "/etc/node_exporter/yml/both.yml" ≠
      metricReturn httpAndExec
        (Http.Healthy execOnlyWorld ⟨"http", "127.0.0.1", 8080, "/healthz", "GET"⟩).1 := by
  decide

/-! ## Nil dereferences -/

theorem YAMLMetric_no_alive (W : World) (f : String) (config : Config) (spec : Spec)
    (hload : LoadFile W f = .ok config) (hs : config.Spec = some spec)
    (ha : spec.ALive = none) :
    YAMLMetric W f = .ret ("", some (f ++ " parser yaml error.")) := by
  unfold YAMLMetric
  rw [hload]
  simp only [hs, ha]

theorem YAMLMetric_no_spec (W : World) (f : String) (config : Config)
    (hload : LoadFile W f = .ok config) (hs : config.Spec = none) :
    YAMLMetric W f = .panic := by
  unfold YAMLMetric
  rw [hload]
  simp only [hs]

/-- C4: for a parsed configuration whose `spec` block is present and has no
`alive` key, `YAMLMetric` returns the empty string and a non-nil error; when
the whole `spec` block is missing, `YAMLMetric` panics instead of returning. -/
theorem YAMLMetric_missing_alive (W : World) (f : String) (config : Config)
    (hload : LoadFile W f = .ok config) :
    (∀ spec, config.Spec = some spec → spec.ALive = none →
      YAMLMetric W f = .ret ("", some (f ++ " parser yaml error."))) ∧
    (config.Spec = none → YAMLMetric W f = .panic) :=
  ⟨fun spec hs ha => YAMLMetric_no_alive W f config spec hload hs ha,
   fun hs => YAMLMetric_no_spec W f config hload hs⟩

/-- Witness of C4: a file with metadata only makes `YAMLMetric` panic. -/
theorem YAMLMetric_missing_alive_witness :
    YAMLMetric noSpecDir "/etc/node_exporter/yml/c.yml" = .panic :=
  (YAMLMetric_missing_alive noSpecDir "/etc/node_exporter/yml/c.yml" noSpec (by decide)).2 rfl

theorem collect_panic (W : World) : ∀ (files acc : List String) (f : String),
    f ∈ files → YAMLMetric W f = .panic → collect W files acc = .panic
  | g :: files, acc, f, hf, hp => by
    unfold collect
    rcases hg : YAMLMetric W g with ⟨d, _ | e⟩ | _
    · simp only
      rcases List.mem_cons.1 hf with rfl | hmem
      · rw [hp] at hg; cases hg
      · exact collect_panic W files _ f hmem hp
    · simp only
      rcases List.mem_cons.1 hf with rfl | hmem
      · rw [hp] at hg; cases hg
      · exact collect_panic W files _ f hmem hp
    · rfl

/-- C5: a scanned file that carries a probe block but whose metadata block or
labels mapping is absent makes the whole call panic: no string is returned and
no other file's block is emitted. -/
theorem GetConfigCollectorMetrics_panics (W : World) (base f : String) (config : Config)
    (spec : Spec) (alive : IsLive) (t : Tcp)
    (hf : f ∈ (LoadFolderFiles W ConfigPath).1)
    (hload : LoadFile W f = .ok config) (hs : config.Spec = some spec)
    (ha : spec.ALive = some alive) (ht : alive.Tcp = some t)
    (hmd : config.Metadata = none ∨ ∃ md, config.Metadata = some md ∧ md.Labels = none) :
    GetConfigCollectorMetrics W base = .panic := by
  have hp : YAMLMetric W f = .panic := by
    rw [YAMLMetric_alive W f config spec alive hload hs ha, ht]
    simp only
    unfold metricReturn MetricInfo
    rcases hmd with h | ⟨md, h1, h2⟩
    · simp only [h]
    · simp only [h1, h2]
  rw [getMetrics_eq, collect_panic W _ _ f hf hp]


/-- Witness of C5: with `nolabels.yml` in the directory the call panics, and the
block of the valid file `probe_up.yml` is not emitted. -/
theorem GetConfigCollectorMetrics_panics_witness :
    GetConfigCollectorMetrics mixedDir "X" = .panic :=
  GetConfigCollectorMetrics_panics mixedDir "X" "/etc/node_exporter/yml/nolabels.yml" noLabels
    ⟨some { Tcp := some ⟨22⟩, Http := none, Exec := none, DelaySeconds := "" }⟩
    { Tcp := some ⟨22⟩, Http := none, Exec := none, DelaySeconds := "" } ⟨22⟩
    (by decide) (by decide) rfl rfl rfl
    (Or.inr ⟨{ Labels := none, Metric := "svc_up", Help := "svc up" }, rfl, rfl⟩)

/-! ## Port bounds -/

/-- C9: for a port with `port <= 0` or `port >= 65535`, `Tcp.Healthy` and
`Http.Healthy` (for every scheme, host, path and method) return 0 having made
no external call; for a port with `0 < port < 65535` there are worlds in which
each of them returns 1, so the bounds check alone does not force 0. -/
theorem Healthy_port_bounds (port : Int) :
    (port ≤ 0 ∨ port ≥ 65535 →
      ∀ W : World, Tcp.Healthy W ⟨port⟩ = (0, []) ∧
        ∀ scheme host path method : String,
          Http.Healthy W ⟨scheme, host, port, path, method⟩ = (0, [])) ∧
    (0 < port ∧ port < 65535 →
      (∃ W : World, (Tcp.Healthy W ⟨port⟩).1 = 1) ∧
      (∃ (W : World) (scheme host path method : String),
        (Http.Healthy W ⟨scheme, host, port, path, method⟩).1 = 1)) := by
  constructor
  · intro h W
    have hb : port ≤ minPort ∨ port ≥ MaxPort := h
    refine ⟨?_, fun scheme host path method => ?_⟩
    · unfold Tcp.Healthy
      rw [if_pos hb]
    · unfold Http.Healthy
      rw [if_pos hb]
  · intro h
    have hb : ¬ (port ≤ minPort ∨ port ≥ MaxPort) := by
      unfold minPort MaxPort
      omega
    refine ⟨⟨liveWorld, ?_⟩, ⟨liveWorld, "http", "127.0.0.1", "/", "GET", ?_⟩⟩
    · unfold Tcp.Healthy
      rw [if_neg hb]
      rfl
    · unfold Http.Healthy
      rw [if_neg hb]
      rfl

/-- Witness of C9 at the ports 0, 65535 and 8080. -/
theorem Healthy_port_bounds_witness :
    (Tcp.Healthy liveWorld ⟨0⟩ = (0, []) ∧
      Http.Healthy liveWorld ⟨"http", "127.0.0.1", 65535, "/", "GET"⟩ = (0, [])) ∧
    ((∃ W : World, (Tcp.Healthy W ⟨8080⟩).1 = 1) ∧
      (∃ (W : World) (scheme host path method : String),
        (Http.Healthy W ⟨scheme, host, 8080, path, method⟩).1 = 1)) :=
  ⟨⟨((Healthy_port_bounds 0).1 (Or.inl (by decide)) liveWorld).1,
    ((Healthy_port_bounds 65535).1 (Or.inr (by decide)) liveWorld).2 "http" "127.0.0.1" "/" "GET"⟩,
   (Healthy_port_bounds 8080).2 ⟨by decide, by decide⟩⟩


/-! ## One malformed file and one TCP file -/

theorem YAMLMetric_load_error (W : World) (f err : String) (h : LoadFile W f = .error err) :
    YAMLMetric W f = .ret ("", some err) := by
  unfold YAMLMetric
  rw [h]

theorem metricJoin_pair (base block : String) :
    metricJoin [base, block] = joinStep base block := by
  show joinStep (joinStep "" base) block = joinStep base block
  rw [joinStep_of_fresh "" base (Or.inl rfl), empty_append]

/-- C2 (as the code has it): with one file that fails to load and one TCP
configuration file whose metadata and labels are present, in either scan order,
`GetConfigCollectorMetrics base` returns `base`, a newline, and the TCP file's
block when `base` is non-empty and does not end in a newline, and `base`
directly followed by the block when `base` is empty or ends in a newline; the
malformed file contributes nothing. -/
theorem GetConfigCollectorMetrics_malformed_and_tcp (W : World) (base bad good err : String)
    (config : Config) (md : Metadata) (m : Labels) (spec : Spec) (alive : IsLive) (t : Tcp)
    (hscan : (LoadFolderFiles W ConfigPath).1 = [bad, good] ∨
      (LoadFolderFiles W ConfigPath).1 = [good, bad])
    (hbad : LoadFile W bad = .error err) (hgood : LoadFile W good = .ok config)
    (hmd : config.Metadata = some md) (hl : md.Labels = some m)
    (hs : config.Spec = some spec) (ha : spec.ALive = some alive) (ht : alive.Tcp = some t) :
    ∃ block : String, MetricInfo config (t.Healthy W).1 = .ret block ∧
      (base ≠ "" ∧ ¬ EndsInNewline base →
        GetConfigCollectorMetrics W base = .ret (base ++ "\n" ++ block)) ∧
      (base = "" ∨ EndsInNewline base →
        GetConfigCollectorMetrics W base = .ret (base ++ block)) := by
  obtain ⟨block, hblock⟩ : ∃ block, MetricInfo config (t.Healthy W).1 = .ret block :=
    ⟨_, MetricInfo_present config md m (t.Healthy W).1 hmd hl⟩
  refine ⟨block, hblock, ?_⟩
  have hg : YAMLMetric W good = .ret (block, none) := by
    rw [YAMLMetric_alive W good config spec alive hgood hs ha, ht]
    simp only [metricReturn, hblock]
  have hb := YAMLMetric_load_error W bad err hbad
  have hjoin : GetConfigCollectorMetrics W base = .ret (joinStep base block) := by
    rw [getMetrics_eq]
    rcases hscan with h | h
    · rw [h]
      simp only [collect, hb, hg, List.singleton_append, metricJoin_pair]
    · rw [h]
      simp only [collect, hb, hg, List.singleton_append, metricJoin_pair]
  constructor
  · intro h
    rw [hjoin, joinStep_of_open _ _ h.1 h.2]
  · intro h
    rw [hjoin, joinStep_of_fresh _ _ h]

/-- Witness of C2 on a malformed file and `probe_up.yml`, with base `X`. -/
theorem GetConfigCollectorMetrics_malformed_and_tcp_witness :
    GetConfigCollectorMetrics oneBadOneTcp "X" = .ret ("X" ++ "\n"
      ++ "# HELP probe_up svc up\n# TYPE probe_up gauge\nprobe_up\x7benv=\"prod\"\x7d 1\n") := by
  obtain ⟨block, hb, h1, _⟩ :=
    GetConfigCollectorMetrics_malformed_and_tcp oneBadOneTcp "X" "/etc/node_exporter/yml/a.yml"
      "/etc/node_exporter/yml/probe_up.yml"
      "parsing YAML file /etc/node_exporter/yml/a.yml: yaml: line 1: did not find expected node"
      probeUp { Labels := some [("env", "prod")], Metric := "probe_up", Help := "svc up" }
      [("env", "prod")]
      ⟨some { Tcp := some ⟨9999⟩, Http := none, Exec := none, DelaySeconds := "" }⟩
      { Tcp := some ⟨9999⟩, Http := none, Exec := none, DelaySeconds := "" } ⟨9999⟩
      (Or.inl (by decide)) (by decide) (by decide) rfl rfl rfl rfl rfl
  have hb2 : MetricInfo probeUp ((Tcp.mk 9999).Healthy oneBadOneTcp).1 = .ret
      "# HELP probe_up svc up\n# TYPE probe_up gauge\nprobe_up\x7benv=\"prod\"\x7d 1\n" := by
    decide
  rw [hb2] at hb
  cases hb
  exact h1 (by decide)

/-- C2 fails as stated: with the empty base metric (and with a base metric that
ends in a newline) no newline is put between the base and the TCP block. -/
theorem GetConfigCollectorMetrics_malformed_and_tcp_counterexample :
    MetricInfo probeUp ((Tcp.mk 9999).Healthy oneBadOneTcp).1 =
      .ret "# HELP probe_up svc up\n# TYPE probe_up gauge\nprobe_up\x7benv=\"prod\"\x7d 1\n" ∧
    GetConfigCollectorMetrics oneBadOneTcp "" ≠ .ret ("" ++ "\n"
      ++ "# HELP probe_up svc up\n# TYPE probe_up gauge\nprobe_up\x7benv=\"prod\"\x7d 1\n") ∧
    GetConfigCollectorMetrics oneBadOneTcp "X\n" ≠ .ret ("X\n" ++ "\n"
      ++ "# HELP probe_up svc up\n# TYPE probe_up gauge\nprobe_up\x7benv=\"prod\"\x7d 1\n") := by
  decide


/-! ## A configuration without a probe -/

theorem YAMLMetric_withFiles (W : World) (files : List String) (f : String) :
    YAMLMetric (W.withFiles files) f = YAMLMetric W f := rfl

theorem collect_withFiles (W : World) (files : List String) : ∀ (fs acc : List String),
    collect (W.withFiles files) fs acc = collect W fs acc
  | [], _ => rfl
  | f :: fs, acc => by
    unfold collect
    rw [YAMLMetric_withFiles]
    rcases YAMLMetric W f with ⟨d, _ | e⟩ | _
    · exact collect_withFiles W files fs _
    · exact collect_withFiles W files fs _
    · rfl

theorem collect_cons (W : World) (f : String) (rest acc : List String) :
    collect W (f :: rest) acc =
      match YAMLMetric W f with
      | .panic => .panic
      | .ret (_, some _) => collect W rest acc
      | .ret (data, none) => collect W rest (acc ++ [data]) := by
  rw [collect]

theorem collect_acc (W : World) : ∀ (files acc : List String),
    collect W files acc =
      match collect W files [] with
      | .panic => .panic
      | .ret bs => .ret (acc ++ bs)
  | [], acc => by simp [collect]
  | f :: files, acc => by
    unfold collect
    rcases YAMLMetric W f with ⟨d, _ | e⟩ | _
    · simp only
      rw [collect_acc W files (acc ++ [d]), collect_acc W files ([] ++ [d])]
      cases collect W files [] <;> simp
    · simp only
      exact collect_acc W files acc
    · rfl

theorem collect_append (W : World) : ∀ (xs ys acc : List String),
    collect W (xs ++ ys) acc =
      match collect W xs acc with
      | .panic => .panic
      | .ret l => collect W ys l
  | [], ys, acc => by simp [collect]
  | f :: xs, ys, acc => by
    rw [List.cons_append, collect_cons W f (xs ++ ys), collect_cons W f xs]
    rcases YAMLMetric W f with ⟨d, _ | e⟩ | _
    · exact collect_append W xs ys _
    · exact collect_append W xs ys _
    · rfl

theorem MetricInfo_ends_in_newline (c : Config) (v : Int) (d : String)
    (h : MetricInfo c v = .ret d) : EndsInNewline d := by
  unfold MetricInfo at h
  split at h
  · cases h
  · split at h
    · cases h
    · simp only [Outcome.ret.injEq] at h
      rw [← h]
      exact ⟨_, (String.data_append _ _).symm⟩

theorem metricReturn_shape (c : Config) (v : Int) (d : String)
    (h : metricReturn c v = .ret (d, none)) : d = "" ∨ EndsInNewline d := by
  unfold metricReturn at h
  rcases hm : MetricInfo c v with b | _
  · rw [hm] at h
    simp only [Outcome.ret.injEq, Prod.mk.injEq, and_true] at h
    exact Or.inr (MetricInfo_ends_in_newline c v d (h ▸ hm))
  · rw [hm] at h
    cases h

/-- Every string `YAMLMetric` returns without an error is empty or a block
that ends in a newline. -/
theorem YAMLMetric_shape (W : World) (f d : String) (h : YAMLMetric W f = .ret (d, none)) :
    d = "" ∨ EndsInNewline d := by
  rcases hload : LoadFile W f with err | config
  · rw [YAMLMetric_load_error W f err hload] at h
    cases h
  · rcases hs : config.Spec with _ | spec
    · rw [YAMLMetric_no_spec W f config hload hs] at h
      cases h
    · rcases ha : spec.ALive with _ | alive
      · rw [YAMLMetric_no_alive W f config spec hload hs ha] at h
        cases h
      · rw [YAMLMetric_alive W f config spec alive hload hs ha] at h
        split at h
        · exact metricReturn_shape _ _ _ h
        · exact metricReturn_shape _ _ _ h
        · exact metricReturn_shape _ _ _ h
        · simp only [Outcome.ret.injEq, Prod.mk.injEq, and_true] at h
          exact Or.inl h.symm

theorem collect_shape (W : World) : ∀ (files bs : List String),
    collect W files [] = .ret bs → ∀ b ∈ bs, b = "" ∨ EndsInNewline b
  | [], bs, h => by
    simp only [collect, Outcome.ret.injEq] at h
    subst h
    intro b hb
    cases hb
  | f :: files, bs, h => by
    unfold collect at h
    rcases hy : YAMLMetric W f with ⟨d, _ | e⟩ | _
    · rw [hy] at h
      simp only at h
      rw [collect_acc] at h
      rcases hc : collect W files [] with bs2 | _
      · rw [hc] at h
        simp only [List.nil_append, List.singleton_append, Outcome.ret.injEq] at h
        subst h
        intro b hb
        rcases List.mem_cons.1 hb with rfl | hb
        · exact YAMLMetric_shape W f _ hy
        · exact collect_shape W files bs2 hc b hb
      · rw [hc] at h
        cases h
    · rw [hy] at h
      exact collect_shape W files bs h
    · rw [hy] at h
      cases h

theorem joinStep_empty_block (r : String) :
    joinStep r "" = if r = "" ∨ EndsInNewline r then r else r ++ "\n" := by
  by_cases h : r = "" ∨ EndsInNewline r
  · rw [joinStep_of_fresh r "" h, if_pos h, append_empty]
  · rw [if_neg h]
    rw [not_or] at h
    rw [joinStep_of_open r "" h.1 h.2, append_empty]

theorem joinStep_after_empty (r y : String) : joinStep (joinStep r "") y = joinStep r y := by
  by_cases h : r = "" ∨ EndsInNewline r
  · rw [joinStep_of_fresh r "" h, append_empty]
  · rw [not_or] at h
    rw [joinStep_of_open r "" h.1 h.2, append_empty, joinStep_of_open r y h.1 h.2]
    exact joinStep_of_fresh _ _ (Or.inr ⟨_, (String.data_append _ _).symm⟩)

theorem joinStep_shape (r y : String) (hy : y = "" ∨ EndsInNewline y) :
    joinStep r y = "" ∨ EndsInNewline (joinStep r y) := by
  rcases hy with rfl | ⟨t, ht⟩
  · rw [joinStep_empty_block]
    by_cases h : r = "" ∨ EndsInNewline r
    · rw [if_pos h]; exact h
    · rw [if_neg h]; exact Or.inr ⟨_, (String.data_append _ _).symm⟩
  · right
    unfold joinStep
    split
    · exact ⟨r.data ++ t, by simp only [String.data_append, ← ht, List.append_assoc]⟩
    · exact ⟨(r ++ "\n").data ++ t, by simp only [String.data_append, ← ht, List.append_assoc]⟩

theorem foldl_joinStep_shape (ys : List String) (r : String) (hne : ys ≠ [])
    (hs : ∀ b ∈ ys, b = "" ∨ EndsInNewline b) :
    ys.foldl joinStep r = "" ∨ EndsInNewline (ys.foldl joinStep r) := by
  rcases List.eq_nil_or_concat ys with h0 | ⟨init, y, rfl⟩
  · exact absurd h0 hne
  · rw [List.concat_eq_append, List.foldl_append]
    exact joinStep_shape _ y (hs y (by simp))

/-- Inserting an empty block into the list given to `metricJoin`. -/
theorem metricJoin_insert_empty (l bs : List String)
    (hs : ∀ b ∈ bs, b = "" ∨ EndsInNewline b) :
    metricJoin (l ++ [""] ++ bs) =
      if metricJoin (l ++ bs) = "" ∨ EndsInNewline (metricJoin (l ++ bs)) then metricJoin (l ++ bs)
      else metricJoin (l ++ bs) ++ "\n" := by
  cases bs with
  | nil =>
    rw [List.append_nil, List.append_nil, metricJoin_snoc, joinStep_empty_block]
  | cons y ys =>
    have h1 : metricJoin (l ++ [""] ++ y :: ys) = metricJoin (l ++ y :: ys) := by
      simp only [metricJoin, List.foldl_append, List.foldl_cons, List.foldl_nil,
        joinStep_after_empty]
    have h2 : metricJoin (l ++ y :: ys) = "" ∨ EndsInNewline (metricJoin (l ++ y :: ys)) := by
      unfold metricJoin
      rw [List.foldl_append]
      exact foldl_joinStep_shape (y :: ys) _ (by simp) hs
    rw [h1, if_pos h2]

/-- C3 (as the code has it): a configuration whose alive block is present with
none of `tcp`, `http`, `exec` populated yields no metric block; the string
returned by `GetConfigCollectorMetrics` is the string returned when that file
is removed from the scan, followed by one newline when that string is non-empty
and does not end in a newline. -/
theorem GetConfigCollectorMetrics_no_probe (W : World) (base : String)
    (pre : List String) (f : String) (post : List String)
    (config : Config) (spec : Spec) (alive : IsLive)
    (hscan : (LoadFolderFiles W ConfigPath).1 = pre ++ f :: post)
    (hload : LoadFile W f = .ok config) (hs : config.Spec = some spec)
    (ha : spec.ALive = some alive)
    (htcp : alive.Tcp = none) (hhttp : alive.Http = none) (hexec : alive.Exec = none) :
    GetConfigCollectorMetrics W base =
      match GetConfigCollectorMetrics (W.withFiles (pre ++ post)) base with
      | .panic => .panic
      | .ret r => .ret (if r = "" ∨ EndsInNewline r then r else r ++ "\n") := by
  have hy : YAMLMetric W f = .ret ("", none) := by
    rw [YAMLMetric_alive W f config spec alive hload hs ha, htcp, hhttp, hexec]
  rw [getMetrics_eq, getMetrics_eq, loadFolderFiles_withFiles, hscan, collect_withFiles,
    collect_append W pre (f :: post), collect_append W pre post]
  rcases collect W pre [base] with l | _
  · simp only [collect, hy]
    rw [collect_acc W post (l ++ [""]), collect_acc W post l]
    rcases hc : collect W post [] with bs | _
    · simp only [Outcome.ret.injEq]
      exact metricJoin_insert_empty l bs (collect_shape W post bs hc)
    · rfl
  · rfl

/-- Witness of C3 on the directory holding `idle.yml` alone, with base `X`. -/
theorem GetConfigCollectorMetrics_no_probe_witness :
    GetConfigCollectorMetrics idleDir "X" = .ret ("X" ++ "\n") :=
  (GetConfigCollectorMetrics_no_probe idleDir "X" [] "/etc/node_exporter/yml/idle.yml" []
    noProbe ⟨some { Tcp := none, Http := none, Exec := none, DelaySeconds := "5" }⟩
    { Tcp := none, Http := none, Exec := none, DelaySeconds := "5" }
    (by decide) (by decide) rfl rfl rfl rfl rfl).trans (by decide)

/-- C3 fails as stated: with base `X` and the single file `idle.yml`, whose
alive block has no probe, the result is `X` followed by a newline, while
without the file it is `X`. -/
theorem GetConfigCollectorMetrics_no_probe_counterexample :
    LoadFile idleDir "/etc/node_exporter/yml/idle.yml" = .ok noProbe ∧
    (LoadFolderFiles idleDir ConfigPath).1 = ["/etc/node_exporter/yml/idle.yml"] ∧
    GetConfigCollectorMetrics idleDir "X" = .ret "X\n" ∧
    GetConfigCollectorMetrics (idleDir.withFiles []) "X" = .ret "X" ∧
    GetConfigCollectorMetrics idleDir "X" ≠ GetConfigCollectorMetrics (idleDir.withFiles []) "X" := by
  decide

end ConfigCollector
